import Mathlib

/-!
Verification of the pattern-scoring engine in
src/agents/fitscore/src/optimized_fitscore.py.

The engine is shallowly embedded: Python floats are modelled by the
rationals (every constant appearing in the program is an exact decimal),
Python's round(x, n) is modelled by half-up rounding to n decimal digits,
and the specific regular expressions used by the program (case-insensitive
word-bounded alternations of literals, a years-of-experience scanner, and
the response parsers of the verification step) are implemented directly
over lists of characters with Python's leftmost-match, first-alternative
semantics.  The md5 cache fingerprint is modelled as the hashed content
itself (a collision-free abstraction) and wall-clock readings are passed
in as explicit parameters.
-/

namespace FitScore

/-- Word characters, as in Python's regex class \w for ASCII text. -/
def isWordChar (c : Char) : Bool := c.isAlpha || c.isDigit || c == '_'

/-- Whitespace recognised by Python's regex class \s (ASCII). -/
def isPySpace (c : Char) : Bool :=
  c == ' ' || c == '\t' || c == '\n' || c == '\r' || c == '\x0b' || c == '\x0c'

def isWordOpt : Option Char → Bool
  | some c => isWordChar c
  | none => false

/-- A word boundary lies between two positions iff exactly one side is a
word character (out of range counts as non-word). -/
def atBoundary (l r : Option Char) : Bool := isWordOpt l != isWordOpt r

/-- One alternative of an alternation pattern: either a literal (after
unescaping, e.g. the source's C\+\+ is the literal C++) or a literal
followed by one-or-more digits and a percent sign (the source's
increased \d+% family). -/
inductive Alt where
  | lit (s : List Char)
  | numPct (s : List Char)
deriving DecidableEq

/-- Case-insensitive literal match at the head of the text; returns the
matched characters as they appear in the text together with the rest. -/
def matchLit : List Char → List Char → Option (List Char × List Char)
  | [], rest => some ([], rest)
  | _ :: _, [] => none
  | p :: ps, c :: cs =>
    if p.toLower == c.toLower then
      match matchLit ps cs with
      | some (m, r) => some (c :: m, r)
      | none => none
    else none

/-- Maximal run of decimal digits at the head of the text. -/
def takeDigits : List Char → List Char × List Char
  | [] => ([], [])
  | c :: cs =>
    if c.isDigit then
      let (d, r) := takeDigits cs
      (c :: d, r)
    else ([], c :: cs)

def matchAlt : Alt → List Char → Option (List Char × List Char)
  | .lit p, text => matchLit p text
  | .numPct p, text =>
    match matchLit p text with
    | some (m, r) =>
      let (d, r2) := takeDigits r
      if d.isEmpty then none
      else
        match r2 with
        | '%' :: r3 => some (m ++ d ++ ['%'], r3)
        | _ => none
    | none => none

/-- Try the alternatives of an alternation in order at the current
position, requiring a word boundary after the match (the boundary before
the match is checked by the caller).  First alternative that matches and
satisfies the trailing boundary wins, as in Python's regex engine. -/
def tryAlts (alts : List Alt) (text : List Char) : Option (List Char × List Char) :=
  match alts with
  | [] => none
  | a :: rest =>
    match matchAlt a text with
    | some (m, r) =>
      if atBoundary m.getLast? r.head? then some (m, r) else tryAlts rest text
    | none => tryAlts rest text

/-- Scan for all non-overlapping matches of a word-bounded alternation,
left to right, resuming after each match; mirrors re.findall on a pattern
of the shape backslash-b(alt1|...|altN)backslash-b. -/
def findallAux (alts : List Alt) : Nat → Option Char → List Char → List (List Char)
  | 0, _, _ => []
  | _ + 1, _, [] => []
  | fuel + 1, prev, c :: cs =>
    if atBoundary prev (some c) then
      match tryAlts alts (c :: cs) with
      | some (m, r) => m :: findallAux alts fuel m.getLast? r
      | none => findallAux alts fuel (some c) cs
    else findallAux alts fuel (some c) cs

def findall (alts : List Alt) (text : List Char) : List (List Char) :=
  findallAux alts text.length none text

/-- Boolean form of re.search for a word-bounded alternation. -/
def searchPat (alts : List Alt) (text : List Char) : Bool :=
  !(findall alts text).isEmpty

/-- Numeric value of a digit string. -/
def digitsToNat (d : List Char) : Nat :=
  d.foldl (fun n c => n * 10 + (c.toNat - '0'.toNat)) 0

/-- Tail of the years regex (\d+)\+?\s*years?\s+(of\s+)?experience after
the digits: optional plus, optional spaces, year with optional s, at
least one space, optional of-plus-spaces, then experience
(case-insensitive, as compiled with re.IGNORECASE). -/
def matchYearsTail (text : List Char) : Option (List Char) :=
  let t1 := match text with
    | '+' :: r => r
    | r => r
  let t2 := t1.dropWhile isPySpace
  match matchLit ("year".toList) t2 with
  | none => none
  | some (_, r) =>
    let r2 := match r with
      | 's' :: rr => rr
      | 'S' :: rr => rr
      | rr => rr
    match r2 with
    | c :: rr =>
      if isPySpace c then
        let r3 := rr.dropWhile isPySpace
        let afterOf : Option (List Char) :=
          match matchLit ("of".toList) r3 with
          | some (_, r4) =>
            match r4 with
            | c2 :: rr2 => if isPySpace c2 then some (rr2.dropWhile isPySpace) else none
            | [] => none
          | none => none
        let withOf : Option (List Char) :=
          match afterOf with
          | some r5 =>
            match matchLit ("experience".toList) r5 with
            | some (_, r6) => some r6
            | none => none
          | none => none
        match withOf with
        | some r6 => some r6
        | none =>
          match matchLit ("experience".toList) r3 with
          | some (_, r6) => some r6
          | none => none
      else none
    | [] => none

/-- All captured digit groups of the years regex, in order of occurrence,
mirroring re.findall over the whole text. -/
def findYearsAux : Nat → List Char → List Nat
  | 0, _ => []
  | _ + 1, [] => []
  | fuel + 1, c :: cs =>
    if c.isDigit then
      let (d, r) := takeDigits (c :: cs)
      match matchYearsTail r with
      | some rest => digitsToNat d :: findYearsAux fuel rest
      | none => findYearsAux fuel cs
    else findYearsAux fuel cs

def findYears (text : List Char) : List Nat :=
  findYearsAux text.length text

def lits (ss : List String) : List Alt := ss.map (fun s => Alt.lit s.toList)

/-- ELITE_UNIVERSITIES tiers: alternation alternatives in source order with
the tier score (tier_1_us, tier_1_cs, tier_1_international, tier_2,
tier_3). -/
def ELITE_UNIVERSITIES : List (List Alt × ℚ) :=
  [ (lits ["MIT", "Stanford", "Harvard", "Berkeley", "UC Berkeley", "Caltech",
      "Princeton", "Yale", "Columbia", "UPenn", "University of Pennsylvania",
      "Cornell"], 9.5),
    (lits ["Waterloo", "Georgia Tech", "CMU", "Carnegie Mellon", "UIUC",
      "UT Austin", "University of Washington", "UW"], 9.2),
    (lits ["Oxford", "Cambridge", "ETH Zurich", "ETH", "IIT",
      "Indian Institute of Technology", "Tsinghua", "Peking University"], 9.0),
    (lits ["UCLA", "USC", "University of Southern California", "Michigan",
      "Northwestern", "Duke", "University of Chicago"], 7.8),
    (lits ["UCSD", "UC San Diego", "Wisconsin", "University of Wisconsin",
      "Washington", "Virginia", "UVA", "North Carolina", "UNC"], 6.5) ]

/-- ELITE_COMPANIES tiers (faang_plus, elite_unicorns, top_startups,
consulting_elite, finance_elite). -/
def ELITE_COMPANIES : List (List Alt × ℚ) :=
  [ (lits ["Google", "Meta", "Facebook", "Apple", "Netflix", "Amazon",
      "Microsoft"], 9.5),
    (lits ["Stripe", "Scale AI", "Databricks", "Figma", "Notion", "Linear",
      "OpenAI", "Anthropic", "Airbnb", "Uber"], 9.2),
    (lits ["Coinbase", "Snowflake", "Palantir", "Slack", "Zoom", "Dropbox",
      "Twilio", "GitLab"], 8.7),
    (lits ["McKinsey", "Bain", "BCG", "Boston Consulting",
      "Deloitte Consulting"], 8.5),
    (lits ["Goldman Sachs", "Morgan Stanley", "JP Morgan", "JPMorgan",
      "Blackstone", "KKR", "Citadel"], 8.3) ]

/-- ACHIEVEMENT_SIGNALS tiers (exceptional, strong, moderate): pattern,
base score, weight. -/
def ACHIEVEMENT_SIGNALS : List (List Alt × ℚ × ℚ) :=
  [ (lits ["patent", "published", "publication", "TED talk", "keynote",
      "conference speaker", "open source", "GitHub", "acquisition", "IPO",
      "Forbes", "YC", "Y Combinator", "founder", "co-founder"], 9.0, 1.0),
    (lits ["award", "recognition", "promotion", "mentored", "scaled",
      "optimized", "launched"] ++
     [Alt.numPct ("increased ".toList), Alt.numPct ("reduced ".toList),
      Alt.numPct ("grew ".toList)] ++
     lits ["saved $", "revenue $"], 7.5, 0.7),
    (lits ["improved", "enhanced", "developed", "built", "created",
      "designed", "implemented"], 6.0, 0.4) ]

structure SkillsConfig where
  core : List Alt
  advanced : List Alt
  leadership : List Alt

def software_engineer_skills : SkillsConfig :=
  { core := lits ["Python", "Java", "JavaScript", "TypeScript", "Go", "Rust",
      "C++", "React", "Node.js", "Django", "Flask", "Spring", "Kubernetes",
      "Docker", "AWS", "GCP", "Azure"],
    advanced := lits ["system design", "microservices", "distributed systems",
      "scalability", "performance optimization", "machine learning", "AI",
      "blockchain"],
    leadership := lits ["architecture", "technical leadership", "code review",
      "mentoring", "hiring", "team building"] }

def product_manager_skills : SkillsConfig :=
  { core := lits ["product strategy", "roadmap", "user research", "analytics",
      "A/B testing", "metrics", "KPIs", "user experience", "UX"],
    advanced := lits ["0-1 products", "product-market fit", "growth",
      "monetization", "pricing", "go-to-market", "GTM"],
    leadership := lits ["stakeholder management", "cross-functional",
      "executive communication", "strategic planning"] }

def data_scientist_skills : SkillsConfig :=
  { core := lits ["Python", "R", "SQL", "machine learning", "ML", "statistics",
      "data analysis", "pandas", "numpy", "scikit-learn"],
    advanced := lits ["deep learning", "neural networks", "TensorFlow",
      "PyTorch", "MLOps", "model deployment", "feature engineering"],
    leadership := lits ["data strategy", "ML platform", "team leadership",
      "research publications"] }

/-- TECHNICAL_SKILLS lookup with the source's fallback: unknown roles use
the software_engineer vocabulary. -/
def skillsConfigFor (role : String) : SkillsConfig :=
  if role = "software_engineer" then software_engineer_skills
  else if role = "product_manager" then product_manager_skills
  else if role = "data_scientist" then data_scientist_skills
  else software_engineer_skills

/-- Generic degree keywords of detect_education_signals. -/
def degreeKeywords : List Alt :=
  lits ["degree", "bachelor", "master", "phd", "bs", "ms", "mba"]

/-- Generic role keywords of detect_experience_signals. -/
def roleKeywords : List Alt :=
  lits ["engineer", "developer", "manager", "analyst", "consultant"]

/-- Loop body shared by the tiered max-score detections: when the tier's
pattern has matches, take the max of the accumulated score and the tier
score and append the matches to the detected list. -/
def tierStep (t : List Char) (acc : ℚ × List (List Char)) (tier : List Alt × ℚ) :
    ℚ × List (List Char) :=
  let matchList := findall tier.1 t
  if matchList.isEmpty then acc else (max acc.1 tier.2, acc.2 ++ matchList)

def tierFold (tiers : List (List Alt × ℚ)) (t : List Char) : ℚ × List (List Char) :=
  tiers.foldl (tierStep t) (0, [])

/-- detect_education_signals: max over university tiers, with the 5.0
generic-degree default when nothing matched. -/
def detect_education_signals (text : String) : ℚ × List (List Char) :=
  let t := text.toList
  let r := tierFold ELITE_UNIVERSITIES t
  if r.2.isEmpty && searchPat degreeKeywords t then
    (5.0, ["General degree".toList])
  else r

/-- detect_experience_signals: max over company tiers, then the
years-of-experience bonus, then the 5.0 generic-experience default, then
the clamp at 10. -/
def detect_experience_signals (text : String) : ℚ × List (List Char) :=
  let t := text.toList
  let c := tierFold ELITE_COMPANIES t
  let years_pattern := findYears t
  let s1 :=
    if years_pattern.isEmpty then c.1
    else
      let years := years_pattern.foldl Nat.max 0
      if 10 ≤ years then c.1 + 1.0
      else if 5 ≤ years then c.1 + 0.5
      else c.1
  let r :=
    if c.2.isEmpty && searchPat roleKeywords t then
      (max s1 5.0, ["General experience".toList])
    else (s1, c.2)
  (min r.1 10.0, r.2)

/-- Loop body of detect_achievement_signals: when a tier matches, add its
base score times weight times the match count capped at 3. -/
def achStep (t : List Char) (acc : ℚ × List (List Char)) (sig : List Alt × ℚ × ℚ) :
    ℚ × List (List Char) :=
  let matchList := findall sig.1 t
  if matchList.isEmpty then acc
  else (acc.1 + sig.2.1 * sig.2.2 * ((min matchList.length 3 : ℕ) : ℚ),
        acc.2 ++ matchList)

/-- detect_achievement_signals: per-tier score times weight times match
count capped at 3, summed over tiers and clamped to 10. -/
def detect_achievement_signals (text : String) : ℚ × List (List Char) :=
  let t := text.toList
  let r := ACHIEVEMENT_SIGNALS.foldl (achStep t) (0, [])
  (min r.1 10.0, r.2)

/-- detect_skills_match: per-tier distinct-match counts with per-tier unit
scores and caps, summed and clamped to 10; the detected list is the
deduplicated union of raw matches (Python's list(set(...)), modelled
keeping the last occurrence of each). -/
def detect_skills_match (text : String) (role : String) : ℚ × List (List Char) :=
  let t := text.toList
  let cfg := skillsConfigFor role
  let core_matches := findall cfg.core t
  let core_score :=
    if core_matches.isEmpty then 0
    else min ((core_matches.dedup.length : ℚ) * 1.5) 4.0
  let advanced_matches := findall cfg.advanced t
  let advanced_score :=
    if advanced_matches.isEmpty then 0
    else min ((advanced_matches.dedup.length : ℚ) * 2.0) 3.5
  let leadership_matches := findall cfg.leadership t
  let leadership_score :=
    if leadership_matches.isEmpty then 0
    else min ((leadership_matches.dedup.length : ℚ) * 1.0) 2.5
  let detected_skills := (core_matches ++ advanced_matches ++ leadership_matches).dedup
  (min (core_score + advanced_score + leadership_score) 10.0, detected_skills)

/-- Half-up rounding to one decimal digit, modelling Python's round(x, 1)
on the exact decimal values produced by the engine. -/
def round1 (x : ℚ) : ℚ := ((x * 10 + 1 / 2).floor : ℚ) / 10

/-- Half-up rounding to three decimal digits, modelling round(x, 3). -/
def round3 (x : ℚ) : ℚ := ((x * 1000 + 1 / 2).floor : ℚ) / 1000

/-- The evaluation result record of the engine. -/
structure EliteScore where
  overall : ℚ
  education : ℚ
  experience : ℚ
  skills : ℚ
  achievements : ℚ
  confidence : ℚ
  hire_decision : String
  strengths : List String
  concerns : List String
  processing_time : ℚ
deriving DecidableEq

/-- Role benchmark record: weight vector and decision thresholds. -/
structure Benchmarks where
  education_weight : ℚ
  experience_weight : ℚ
  skills_weight : ℚ
  achievements_weight : ℚ
  hire_threshold : ℚ
  elite_threshold : ℚ
deriving DecidableEq

def software_engineer_benchmarks : Benchmarks :=
  { education_weight := 0.15, experience_weight := 0.35, skills_weight := 0.25,
    achievements_weight := 0.25, hire_threshold := 7.5, elite_threshold := 8.5 }

def product_manager_benchmarks : Benchmarks :=
  { education_weight := 0.10, experience_weight := 0.40, skills_weight := 0.30,
    achievements_weight := 0.20, hire_threshold := 7.0, elite_threshold := 8.0 }

def data_scientist_benchmarks : Benchmarks :=
  { education_weight := 0.20, experience_weight := 0.30, skills_weight := 0.35,
    achievements_weight := 0.15, hire_threshold := 7.2, elite_threshold := 8.2 }

/-- role_benchmarks.get(role, role_benchmarks of software_engineer). -/
def getRoleBenchmarks (role : String) : Benchmarks :=
  if role = "software_engineer" then software_engineer_benchmarks
  else if role = "product_manager" then product_manager_benchmarks
  else if role = "data_scientist" then data_scientist_benchmarks
  else software_engineer_benchmarks

/-- The hire-decision threshold ladder of evaluate_candidate_fast,
evaluated top down with ties taking the higher label. -/
def hireDecisionFor (benchmarks : Benchmarks) (overall_score : ℚ) : String :=
  if benchmarks.elite_threshold ≤ overall_score then "HIRE"
  else if benchmarks.hire_threshold ≤ overall_score then "STRONG_MAYBE"
  else if 6.0 ≤ overall_score then "MAYBE"
  else "NO_HIRE"

/-- Comma-joined rendering of detected literals, as str.join produces for
the strengths templates. -/
def joinComma (l : List (List Char)) : String :=
  String.intercalate ", " (l.map (fun cs => String.mk cs))

/-- Cache fingerprint: the source hashes the first 500 characters of the
text concatenated with an underscore and the role via md5; the hash is
modelled as the hashed content itself. -/
def get_cache_key (candidate_text role : String) : String :=
  String.mk (candidate_text.toList.take 500) ++ "_" ++ role

/-- Mutable engine state: the in-memory cache mapping fingerprints to
previously computed results. -/
structure OFSState where
  cache : String → Option EliteScore

def emptyState : OFSState := ⟨fun _ => none⟩

/-- Dictionary store: cache of cache_key set to result, other keys
unchanged. -/
def cacheInsert (st : OFSState) (cache_key : String) (result : EliteScore) : OFSState :=
  ⟨fun k => if k = cache_key then some result else st.cache k⟩

/-- The cache-miss computation of evaluate_candidate_fast: the four
detections, the weighted overall score, the threshold ladder, the
strengths/concerns synthesis, and the confidence heuristic.  The elapsed
wall time of the call is passed in explicitly. -/
def fast_eval_core (candidate_text role : String) (elapsed : ℚ) : EliteScore :=
  let benchmarks := getRoleBenchmarks role
  let ed := detect_education_signals candidate_text
  let ex := detect_experience_signals candidate_text
  let sk := detect_skills_match candidate_text role
  let ac := detect_achievement_signals candidate_text
  let education_score := ed.1
  let education_details := ed.2
  let experience_score := ex.1
  let experience_details := ex.2
  let skills_score := sk.1
  let skills_details := sk.2
  let achievements_score := ac.1
  let achievements_details := ac.2
  let overall_score :=
    education_score * benchmarks.education_weight +
    experience_score * benchmarks.experience_weight +
    skills_score * benchmarks.skills_weight +
    achievements_score * benchmarks.achievements_weight
  let hire_decision := hireDecisionFor benchmarks overall_score
  let strengths :=
    (if 8.0 ≤ education_score then
      ["Elite education: " ++ joinComma (education_details.take 2)] else []) ++
    (if 8.0 ≤ experience_score then
      ["Top-tier experience: " ++ joinComma (experience_details.take 2)] else []) ++
    (if 8.0 ≤ skills_score then
      ["Strong technical skills: " ++ joinComma (skills_details.take 3)] else []) ++
    (if 7.0 ≤ achievements_score then
      ["Notable achievements: " ++ joinComma (achievements_details.take 2)] else [])
  let concerns :=
    (if 8.0 ≤ education_score then []
     else if education_score < 6.0 then ["Education background below expectations"]
     else []) ++
    (if 8.0 ≤ experience_score then []
     else if experience_score < 6.0 then ["Limited relevant experience"]
     else []) ++
    (if 8.0 ≤ skills_score then []
     else if skills_score < 6.0 then ["Missing key technical skills"]
     else []) ++
    (if 7.0 ≤ achievements_score then []
     else if achievements_score < 4.0 then ["Limited demonstrated impact"]
     else [])
  let confidence :=
    min 95.0
      (60.0 + (candidate_text.toList.length : ℚ) / 100 +
        (((education_details ++ experience_details ++ skills_details).length : ℚ) * 5))
  { overall := round1 overall_score
    education := round1 education_score
    experience := round1 experience_score
    skills := round1 skills_score
    achievements := round1 achievements_score
    confidence := round1 confidence
    hire_decision := hire_decision
    strengths := strengths.take 3
    concerns := concerns.take 2
    processing_time := round3 elapsed }

/-- evaluate_candidate_fast: consult the cache first; on a hit return the
stored result with its processing_time overwritten by the current call's
elapsed time (the source mutates and returns the cached object itself);
on a miss compute, store and return. -/
def evaluate_candidate_fast (st : OFSState) (candidate_text role : String)
    (elapsed : ℚ) : EliteScore × OFSState :=
  let cache_key := get_cache_key candidate_text role
  match st.cache cache_key with
  | some cached_result =>
    let r := { cached_result with processing_time := elapsed }
    (r, cacheInsert st cache_key r)
  | none =>
    let result := fast_eval_core candidate_text role elapsed
    (result, cacheInsert st cache_key result)

/-- Outcome of the external verification attempt, as seen by
_llm_verification: mock mode (no API key configured), a failure while
obtaining the response (every exception the source can raise inside its
try block occurs before any field of fast_result is assigned, so a
failure leaves the result untouched), or a successfully obtained response
text. -/
inductive BackendOutcome where
  | mock
  | failure
  | response (content : String)

/-- First number on the current line, mirroring the lazy skip of
Score.*?(\d+\.?\d*): the dot does not cross a newline, and from the first
digit the group takes the digits, an optional point and further digits. -/
def firstNumOnLine : List Char → Option ℚ
  | [] => none
  | c :: cs =>
    if c == '\n' then none
    else if c.isDigit then
      let (d, r) := takeDigits (c :: cs)
      match r with
      | '.' :: r2 =>
        let (f, _) := takeDigits r2
        some ((digitsToNat d : ℚ) + (digitsToNat f : ℚ) / ((10 : ℚ) ^ f.length))
      | _ => some ((digitsToNat d : ℚ))
    else firstNumOnLine cs

/-- Like firstNumOnLine but for an integer-only group (\d+). -/
def firstIntOnLine : List Char → Option ℚ
  | [] => none
  | c :: cs =>
    if c == '\n' then none
    else if c.isDigit then
      let (d, _) := takeDigits (c :: cs)
      some ((digitsToNat d : ℚ))
    else firstIntOnLine cs

/-- re.search(keyword.*?(number)) with IGNORECASE: leftmost occurrence of
the keyword from which a number is reachable on the same line. -/
def findKwNum (kw : List Char) : Nat → List Char → Option ℚ
  | 0, _ => none
  | _ + 1, [] => none
  | fuel + 1, c :: cs =>
    match matchLit kw (c :: cs) with
    | some (_, rest) =>
      match firstNumOnLine rest with
      | some v => some v
      | none => findKwNum kw fuel cs
    | none => findKwNum kw fuel cs

def findKwInt (kw : List Char) : Nat → List Char → Option ℚ
  | 0, _ => none
  | _ + 1, [] => none
  | fuel + 1, c :: cs =>
    match matchLit kw (c :: cs) with
    | some (_, rest) =>
      match firstIntOnLine rest with
      | some v => some v
      | none => findKwInt kw fuel cs
    | none => findKwInt kw fuel cs

/-- Case-sensitive literal match returning the rest. -/
def matchExact : List Char → List Char → Option (List Char)
  | [], t => some t
  | _ :: _, [] => none
  | p :: ps, c :: cs => if p == c then matchExact ps cs else none

/-- re.search((HIRE|STRONG_MAYBE|MAYBE|NO_HIRE)): leftmost match,
alternatives in order, case-sensitive, no word boundaries. -/
def findDecisionAux : Nat → List Char → Option String
  | 0, _ => none
  | _ + 1, [] => none
  | fuel + 1, c :: cs =>
    if (matchExact "HIRE".toList (c :: cs)).isSome then some "HIRE"
    else if (matchExact "STRONG_MAYBE".toList (c :: cs)).isSome then some "STRONG_MAYBE"
    else if (matchExact "MAYBE".toList (c :: cs)).isSome then some "MAYBE"
    else if (matchExact "NO_HIRE".toList (c :: cs)).isSome then some "NO_HIRE"
    else findDecisionAux fuel cs

/-- Lazy capture of (.*?) up to the first closing bracket (DOTALL, so
newlines are crossed); fails when no bracket follows. -/
def takeUntilRBracket : List Char → Option (List Char)
  | [] => none
  | ']' :: _ => some []
  | c :: cs => (takeUntilRBracket cs).map (c :: ·)

/-- Match keyword s? :? \s* [ capture ] at the current position, with the
regex engine's backtracking over the optional s. -/
def matchSectionAt (kw : List Char) (t : List Char) : Option (List Char) :=
  match matchLit kw t with
  | none => none
  | some (_, r0) =>
    let after : List Char → Option (List Char) := fun r =>
      let r2 := match r with
        | ':' :: rr => rr
        | rr => rr
      let r3 := r2.dropWhile isPySpace
      match r3 with
      | '[' :: rr => takeUntilRBracket rr
      | _ => none
    match r0 with
    | 's' :: rr =>
      (match after rr with
       | some inner => some inner
       | none => after r0)
    | 'S' :: rr =>
      (match after rr with
       | some inner => some inner
       | none => after r0)
    | _ => after r0

/-- re.search(keyword s? :? \s* bracket-list) over the whole content:
leftmost position at which the section pattern matches. -/
def findSection (kw : List Char) : Nat → List Char → Option (List Char)
  | 0, _ => none
  | _ + 1, [] => none
  | fuel + 1, c :: cs =>
    match matchSectionAt kw (c :: cs) with
    | some inner => some inner
    | none => findSection kw fuel cs

/-- Python str.strip on ASCII whitespace. -/
def pyStrip (l : List Char) : List Char :=
  ((l.dropWhile isPySpace).reverse.dropWhile isPySpace).reverse

/-- Python str.split on a comma: always at least one piece. -/
def splitComma : List Char → List (List Char)
  | [] => [[]]
  | c :: cs =>
    if c == ',' then [] :: splitComma cs
    else
      match splitComma cs with
      | h :: t => (c :: h) :: t
      | [] => [[c]]

/-- _llm_verification: in mock mode apply the deterministic strength and
concern notes; on a failed call return the fast result untouched; on a
response, overwrite exactly the fields whose patterns parse, in source
order (overall, hire_decision, confidence, strengths, concerns). -/
def llm_verification (fast_result : EliteScore) (outcome : BackendOutcome) : EliteScore :=
  match outcome with
  | .mock =>
    let r1 :=
      if 8.0 ≤ fast_result.overall then
        { fast_result with strengths := fast_result.strengths ++ ["Mock: Strong overall profile"] }
      else fast_result
    if fast_result.overall ≤ 6.0 then
      { r1 with concerns := r1.concerns ++ ["Mock: Needs improvement in key areas"] }
    else r1
  | .failure => fast_result
  | .response content =>
    let t := content.toList
    let r1 := match findKwNum "score".toList t.length t with
      | some v => { fast_result with overall := v }
      | none => fast_result
    let r2 := match findDecisionAux t.length t with
      | some d => { r1 with hire_decision := d }
      | none => r1
    let r3 := match findKwInt "confidence".toList t.length t with
      | some v => { r2 with confidence := v }
      | none => r2
    let r4 := match findSection "strength".toList t.length t with
      | some inner =>
        { r3 with strengths :=
            (((splitComma inner).map (fun s => String.mk (pyStrip s))).take 2) }
      | none => r3
    match findSection "concern".toList t.length t with
    | some inner =>
      { r4 with concerns :=
          (((splitComma inner).map (fun s => String.mk (pyStrip s))).take 2) }
    | none => r4

/-- evaluate_with_llm_verification: fast evaluation, then the verification
step exactly when confidence is below 70 or the overall score lies in the
closed borderline band. -/
def evaluate_with_llm_verification (st : OFSState) (candidate_text role : String)
    (elapsed : ℚ) (outcome : BackendOutcome) : EliteScore × OFSState :=
  let fr := evaluate_candidate_fast st candidate_text role elapsed
  let fast_result := fr.1
  if fast_result.confidence < 70 ∨ (6.5 ≤ fast_result.overall ∧ fast_result.overall ≤ 8.0) then
    (llm_verification fast_result outcome, fr.2)
  else
    (fast_result, fr.2)

/-- batch_evaluate: evaluate each candidate text with the shared cache and
collect the results in input order.  The source fans the evaluations out
on a worker pool; the model fixes the sequential in-input-order
interleaving of those evaluations. -/
def batch_evaluate (st : OFSState) (candidates : List (String × String))
    (role : String) (elapsed : ℚ) : List EliteScore × OFSState :=
  match candidates with
  | [] => ([], st)
  | c :: cs =>
    let fr := evaluate_candidate_fast st c.1 role elapsed
    let rest := batch_evaluate fr.2 cs role elapsed
    (fr.1 :: rest.1, rest.2)

/-- Rank of the hire-decision labels in the order NO_HIRE, MAYBE,
STRONG_MAYBE, HIRE. -/
def labelRank (d : String) : ℕ :=
  if d = "HIRE" then 3
  else if d = "STRONG_MAYBE" then 2
  else if d = "MAYBE" then 1
  else 0

/-- Range invariant claimed for results: category and overall scores in
the unit-to-ten band and confidence in the zero-to-95 band. -/
def scoreBounds (e : EliteScore) : Prop :=
  0 ≤ e.education ∧ e.education ≤ 10 ∧
  0 ≤ e.experience ∧ e.experience ≤ 10 ∧
  0 ≤ e.skills ∧ e.skills ≤ 10 ∧
  0 ≤ e.achievements ∧ e.achievements ≤ 10 ∧
  0 ≤ e.overall ∧ e.overall ≤ 10 ∧
  0 ≤ e.confidence ∧ e.confidence ≤ 95

/-- The end-to-end scenario text of the specification. -/
def c9Text : String := "Stanford University, B.S. Computer Science. Google, Software Engineer, 10 years of experience. Skills: Python, Kubernetes, system design. Patent holder, published research."

/-- A text with a generic role keyword and ten years of experience but no
employer-tier match. -/
def c1Text : String := "engineer with 10 years of experience"

/-- Five hundred filler characters: no pattern matches in this text. -/
def zText : String := String.mk (List.replicate 500 'z')

/-- The same five hundred filler characters followed by a generic role
keyword: shares its first five hundred characters with zText but scores
differently. -/
def zbText : String := String.mk (List.replicate 500 'z' ++ " engineer".toList)

/-- One hundred twenty-three filler characters, giving a confidence with
two decimal digits before rounding. -/
def z123Text : String := String.mk (List.replicate 123 'z')

def dummyScore : EliteScore :=
  { overall := 0, education := 0, experience := 0, skills := 0, achievements := 0,
    confidence := 0, hire_decision := "", strengths := [], concerns := [],
    processing_time := 0 }

/-- A sample stored evaluation used to exercise the cache-hit path. -/
def sampleScore : EliteScore :=
  { overall := 7.2, education := 8.0, experience := 9.5, skills := 6.0,
    achievements := 5.5, confidence := 88.0, hire_decision := "STRONG_MAYBE",
    strengths := ["Top-tier experience: Google"], concerns := [],
    processing_time := 0.25 }

/-- An engine state whose cache already holds sampleScore under the
fingerprint of the text abc with the software_engineer role. -/
def sampleState : OFSState :=
  ⟨fun k => if k = get_cache_key "abc" "software_engineer" then some sampleScore else none⟩

set_option maxRecDepth 1000000

lemma rat_floor_eq_int_floor (q : ℚ) : (q.floor : ℤ) = ⌊q⌋ := by
  rw [Rat.floor_def', Rat.floor_def]

lemma round1_mono {x y : ℚ} (h : x ≤ y) : round1 x ≤ round1 y := by
  unfold round1
  rw [rat_floor_eq_int_floor, rat_floor_eq_int_floor]
  have h1 : ⌊x * 10 + 1 / 2⌋ ≤ ⌊y * 10 + 1 / 2⌋ := Int.floor_mono (by linarith)
  have h2 : ((⌊x * 10 + 1 / 2⌋ : ℤ) : ℚ) ≤ ((⌊y * 10 + 1 / 2⌋ : ℤ) : ℚ) := by
    exact_mod_cast h1
  linarith

lemma round1_zero : round1 0 = 0 := by with_unfolding_all decide

lemma round1_ten : round1 10 = 10 := by with_unfolding_all decide

lemma round1_sixty : round1 60 = 60 := by with_unfolding_all decide

lemma round1_ninetyfive : round1 95 = 95 := by with_unfolding_all decide

lemma foldl_tierStep_nonneg (t : List Char) (tiers : List (List Alt × ℚ)) :
    ∀ acc : ℚ × List (List Char), 0 ≤ acc.1 →
      0 ≤ (List.foldl (tierStep t) acc tiers).1 := by
  induction tiers with
  | nil => intro acc h; simpa using h
  | cons p ps ih =>
    intro acc h
    simp only [List.foldl]
    apply ih
    simp only [tierStep]
    by_cases hc : (findall p.1 t).isEmpty
    · rw [if_pos hc]; exact h
    · rw [if_neg hc]; exact le_trans h (le_max_left _ _)

lemma foldl_tierStep_le (t : List Char) (bound : ℚ) (tiers : List (List Alt × ℚ)) :
    ∀ acc : ℚ × List (List Char), acc.1 ≤ bound → (∀ p ∈ tiers, p.2 ≤ bound) →
      (List.foldl (tierStep t) acc tiers).1 ≤ bound := by
  induction tiers with
  | nil => intro acc h _; simpa using h
  | cons p ps ih =>
    intro acc h hs
    simp only [List.foldl]
    apply ih
    · simp only [tierStep]
      by_cases hc : (findall p.1 t).isEmpty
      · rw [if_pos hc]; exact h
      · rw [if_neg hc]
        exact max_le h (hs p (List.mem_cons_self p ps))
    · intro q hq
      exact hs q (List.mem_cons_of_mem p hq)

lemma foldl_achStep_nonneg (t : List Char) (sigs : List (List Alt × ℚ × ℚ)) :
    ∀ acc : ℚ × List (List Char), 0 ≤ acc.1 →
      (∀ s ∈ sigs, 0 ≤ s.2.1 ∧ 0 ≤ s.2.2) →
      0 ≤ (List.foldl (achStep t) acc sigs).1 := by
  induction sigs with
  | nil => intro acc h _; simpa using h
  | cons p ps ih =>
    intro acc h hs
    simp only [List.foldl]
    apply ih
    · simp only [achStep]
      by_cases hc : (findall p.1 t).isEmpty
      · rw [if_pos hc]; exact h
      · rw [if_neg hc]
        have hp := hs p (List.mem_cons_self p ps)
        have : (0 : ℚ) ≤ p.2.1 * p.2.2 * ((min (findall p.1 t).length 3 : ℕ) : ℚ) := by
          have := hp.1
          have := hp.2
          positivity
        simp only []
        linarith
    · intro q hq
      exact hs q (List.mem_cons_of_mem p hq)

lemma detect_education_nonneg (text : String) : 0 ≤ (detect_education_signals text).1 := by
  simp only [detect_education_signals]
  split
  · norm_num
  · exact foldl_tierStep_nonneg _ _ _ le_rfl

lemma detect_education_le10 (text : String) : (detect_education_signals text).1 ≤ 10 := by
  simp only [detect_education_signals]
  split
  · norm_num
  · refine foldl_tierStep_le _ _ _ _ (by norm_num) ?_
    intro p hp
    fin_cases hp <;> norm_num

lemma detect_experience_le10 (text : String) : (detect_experience_signals text).1 ≤ 10 := by
  simp only [detect_experience_signals]
  exact le_trans (min_le_right _ _) (by norm_num)

lemma detect_experience_nonneg (text : String) : 0 ≤ (detect_experience_signals text).1 := by
  have hc : 0 ≤ (tierFold ELITE_COMPANIES text.toList).1 :=
    foldl_tierStep_nonneg _ _ _ le_rfl
  simp only [detect_experience_signals]
  refine le_min ?_ (by norm_num)
  split
  · exact le_trans (le_trans (by norm_num : (0:ℚ) ≤ 5.0) (le_max_right _ _)) le_rfl
  · split
    · exact hc
    · split
      · linarith
      · split
        · linarith
        · exact hc

lemma detect_skills_le10 (text role : String) : (detect_skills_match text role).1 ≤ 10 := by
  simp only [detect_skills_match]
  exact le_trans (min_le_right _ _) (by norm_num)

lemma detect_skills_nonneg (text role : String) : 0 ≤ (detect_skills_match text role).1 := by
  simp only [detect_skills_match]
  refine le_min ?_ (by norm_num)
  have h1 : ∀ (l : List (List Char)) (u cap : ℚ), 0 ≤ u → 0 ≤ cap →
      (0 : ℚ) ≤ if l.isEmpty then 0 else min ((l.dedup.length : ℚ) * u) cap := by
    intro l u cap hu hcap
    split
    · exact le_refl 0
    · exact le_min (by positivity) hcap
  have g1 := h1 (findall (skillsConfigFor role).core text.toList) 1.5 4.0 (by norm_num) (by norm_num)
  have g2 := h1 (findall (skillsConfigFor role).advanced text.toList) 2.0 3.5 (by norm_num) (by norm_num)
  have g3 := h1 (findall (skillsConfigFor role).leadership text.toList) 1.0 2.5 (by norm_num) (by norm_num)
  linarith

lemma detect_achievements_le10 (text : String) : (detect_achievement_signals text).1 ≤ 10 := by
  simp only [detect_achievement_signals]
  exact le_trans (min_le_right _ _) (by norm_num)

lemma detect_achievements_nonneg (text : String) : 0 ≤ (detect_achievement_signals text).1 := by
  simp only [detect_achievement_signals]
  refine le_min ?_ (by norm_num)
  refine foldl_achStep_nonneg _ _ _ le_rfl ?_
  intro s hs
  fin_cases hs <;> constructor <;> norm_num

lemma getRoleBenchmarks_cases (role : String) :
    getRoleBenchmarks role = software_engineer_benchmarks ∨
    getRoleBenchmarks role = product_manager_benchmarks ∨
    getRoleBenchmarks role = data_scientist_benchmarks := by
  unfold getRoleBenchmarks
  split_ifs <;> simp

lemma weighted_overall_bounds (role : String) (e x s a : ℚ)
    (he : 0 ≤ e) (he10 : e ≤ 10) (hx : 0 ≤ x) (hx10 : x ≤ 10)
    (hs : 0 ≤ s) (hs10 : s ≤ 10) (ha : 0 ≤ a) (ha10 : a ≤ 10) :
    0 ≤ e * (getRoleBenchmarks role).education_weight +
        x * (getRoleBenchmarks role).experience_weight +
        s * (getRoleBenchmarks role).skills_weight +
        a * (getRoleBenchmarks role).achievements_weight ∧
    e * (getRoleBenchmarks role).education_weight +
        x * (getRoleBenchmarks role).experience_weight +
        s * (getRoleBenchmarks role).skills_weight +
        a * (getRoleBenchmarks role).achievements_weight ≤ 10 := by
  rcases getRoleBenchmarks_cases role with h | h | h <;> rw [h]
  · exact ⟨by show (0:ℚ) ≤ e * 0.15 + x * 0.35 + s * 0.25 + a * 0.25; linarith,
      by show e * (0.15:ℚ) + x * 0.35 + s * 0.25 + a * 0.25 ≤ 10; linarith⟩
  · exact ⟨by show (0:ℚ) ≤ e * 0.10 + x * 0.40 + s * 0.30 + a * 0.20; linarith,
      by show e * (0.10:ℚ) + x * 0.40 + s * 0.30 + a * 0.20 ≤ 10; linarith⟩
  · exact ⟨by show (0:ℚ) ≤ e * 0.20 + x * 0.30 + s * 0.35 + a * 0.15; linarith,
      by show e * (0.20:ℚ) + x * 0.30 + s * 0.35 + a * 0.15 ≤ 10; linarith⟩

lemma fast_eval_core_education (ct role : String) (el : ℚ) :
    (fast_eval_core ct role el).education = round1 (detect_education_signals ct).1 := rfl

lemma fast_eval_core_experience (ct role : String) (el : ℚ) :
    (fast_eval_core ct role el).experience = round1 (detect_experience_signals ct).1 := rfl

lemma fast_eval_core_skills (ct role : String) (el : ℚ) :
    (fast_eval_core ct role el).skills = round1 (detect_skills_match ct role).1 := rfl

lemma fast_eval_core_achievements (ct role : String) (el : ℚ) :
    (fast_eval_core ct role el).achievements = round1 (detect_achievement_signals ct).1 := rfl

lemma fast_eval_core_overall (ct role : String) (el : ℚ) :
    (fast_eval_core ct role el).overall =
      round1 ((detect_education_signals ct).1 * (getRoleBenchmarks role).education_weight +
        (detect_experience_signals ct).1 * (getRoleBenchmarks role).experience_weight +
        (detect_skills_match ct role).1 * (getRoleBenchmarks role).skills_weight +
        (detect_achievement_signals ct).1 * (getRoleBenchmarks role).achievements_weight) := rfl

lemma fast_eval_core_confidence (ct role : String) (el : ℚ) :
    (fast_eval_core ct role el).confidence =
      round1 (min 95.0 (60.0 + (ct.toList.length : ℚ) / 100 +
        ((((detect_education_signals ct).2 ++ (detect_experience_signals ct).2 ++
            (detect_skills_match ct role).2).length : ℚ) * 5))) := rfl

lemma round1_bounds_unit {x : ℚ} (h0 : 0 ≤ x) (h10 : x ≤ 10) :
    0 ≤ round1 x ∧ round1 x ≤ 10 := by
  constructor
  · have := round1_mono h0
    rwa [round1_zero] at this
  · have := round1_mono h10
    rwa [round1_ten] at this

lemma core_confidence_band (ct role : String) (el : ℚ) :
    60 ≤ (fast_eval_core ct role el).confidence ∧
    (fast_eval_core ct role el).confidence ≤ 95 := by
  rw [fast_eval_core_confidence]
  have hL : (0 : ℚ) ≤ (ct.toList.length : ℚ) := by positivity
  have hC : (0 : ℚ) ≤
      (((detect_education_signals ct).2 ++ (detect_experience_signals ct).2 ++
        (detect_skills_match ct role).2).length : ℚ) := by positivity
  have hlo : (60 : ℚ) ≤ min 95.0 (60.0 + (ct.toList.length : ℚ) / 100 +
      ((((detect_education_signals ct).2 ++ (detect_experience_signals ct).2 ++
          (detect_skills_match ct role).2).length : ℚ) * 5)) := by
    refine le_min (by norm_num) ?_
    have : (0 : ℚ) ≤ (ct.toList.length : ℚ) / 100 := by positivity
    linarith
  have hhi : min 95.0 (60.0 + (ct.toList.length : ℚ) / 100 +
      ((((detect_education_signals ct).2 ++ (detect_experience_signals ct).2 ++
          (detect_skills_match ct role).2).length : ℚ) * 5)) ≤ 95 :=
    le_trans (min_le_left _ _) (by norm_num)
  constructor
  · have := round1_mono hlo
    rwa [round1_sixty] at this
  · have := round1_mono hhi
    rwa [round1_ninetyfive] at this

lemma core_scoreBounds (ct role : String) (el : ℚ) :
    scoreBounds (fast_eval_core ct role el) := by
  have hed := round1_bounds_unit (detect_education_nonneg ct) (detect_education_le10 ct)
  have hex := round1_bounds_unit (detect_experience_nonneg ct) (detect_experience_le10 ct)
  have hsk := round1_bounds_unit (detect_skills_nonneg ct role) (detect_skills_le10 ct role)
  have hac := round1_bounds_unit (detect_achievements_nonneg ct) (detect_achievements_le10 ct)
  have hov := weighted_overall_bounds role _ _ _ _
    (detect_education_nonneg ct) (detect_education_le10 ct)
    (detect_experience_nonneg ct) (detect_experience_le10 ct)
    (detect_skills_nonneg ct role) (detect_skills_le10 ct role)
    (detect_achievements_nonneg ct) (detect_achievements_le10 ct)
  have hov' := round1_bounds_unit hov.1 hov.2
  have hcf := core_confidence_band ct role el
  refine ⟨?_, ?_, ?_, ?_, ?_, ?_, ?_, ?_, ?_, ?_, ?_, ?_⟩
  · rw [fast_eval_core_education]; exact hed.1
  · rw [fast_eval_core_education]; exact hed.2
  · rw [fast_eval_core_experience]; exact hex.1
  · rw [fast_eval_core_experience]; exact hex.2
  · rw [fast_eval_core_skills]; exact hsk.1
  · rw [fast_eval_core_skills]; exact hsk.2
  · rw [fast_eval_core_achievements]; exact hac.1
  · rw [fast_eval_core_achievements]; exact hac.2
  · rw [fast_eval_core_overall]; exact hov'.1
  · rw [fast_eval_core_overall]; exact hov'.2
  · linarith [hcf.1]
  · exact hcf.2

lemma eval_hit {st : OFSState} {candidate_text role : String} {elapsed : ℚ}
    {e : EliteScore} (h : st.cache (get_cache_key candidate_text role) = some e) :
    evaluate_candidate_fast st candidate_text role elapsed =
      ({ e with processing_time := elapsed },
       cacheInsert st (get_cache_key candidate_text role)
         { e with processing_time := elapsed }) := by
  simp only [evaluate_candidate_fast, h]

lemma eval_miss {st : OFSState} {candidate_text role : String} {elapsed : ℚ}
    (h : st.cache (get_cache_key candidate_text role) = none) :
    evaluate_candidate_fast st candidate_text role elapsed =
      (fast_eval_core candidate_text role elapsed,
       cacheInsert st (get_cache_key candidate_text role)
         (fast_eval_core candidate_text role elapsed)) := by
  simp only [evaluate_candidate_fast, h]

/-- C3: evaluate_with_llm_verification escalates exactly when the fast
result's confidence is below 70 or its overall score lies in the closed
band from 6.5 to 8.0; otherwise the fast result itself is returned as
final. -/
theorem escalation_iff_borderline (st : OFSState) (candidate_text role : String)
    (elapsed : ℚ) (outcome : BackendOutcome) :
    (((evaluate_candidate_fast st candidate_text role elapsed).1.confidence < 70 ∨
        (6.5 ≤ (evaluate_candidate_fast st candidate_text role elapsed).1.overall ∧
          (evaluate_candidate_fast st candidate_text role elapsed).1.overall ≤ 8.0)) →
      (evaluate_with_llm_verification st candidate_text role elapsed outcome).1 =
        llm_verification (evaluate_candidate_fast st candidate_text role elapsed).1 outcome) ∧
    (¬((evaluate_candidate_fast st candidate_text role elapsed).1.confidence < 70 ∨
        (6.5 ≤ (evaluate_candidate_fast st candidate_text role elapsed).1.overall ∧
          (evaluate_candidate_fast st candidate_text role elapsed).1.overall ≤ 8.0)) →
      (evaluate_with_llm_verification st candidate_text role elapsed outcome).1 =
        (evaluate_candidate_fast st candidate_text role elapsed).1) := by
  constructor
  · intro h
    simp only [evaluate_with_llm_verification]
    rw [if_pos h]
  · intro h
    simp only [evaluate_with_llm_verification]
    rw [if_neg h]

/-- C3 witness: the empty text has confidence 60, below 70, so the
verification result is the verified fast result. -/
theorem escalation_iff_borderline_witness :
    ((evaluate_candidate_fast emptyState "" "software_engineer" 0).1.confidence < 70 ∨
      (6.5 ≤ (evaluate_candidate_fast emptyState "" "software_engineer" 0).1.overall ∧
        (evaluate_candidate_fast emptyState "" "software_engineer" 0).1.overall ≤ 8.0)) ∧
    (evaluate_with_llm_verification emptyState "" "software_engineer" 0 BackendOutcome.failure).1 =
      llm_verification (evaluate_candidate_fast emptyState "" "software_engineer" 0).1
        BackendOutcome.failure :=
  ⟨Or.inl (by with_unfolding_all decide),
   (escalation_iff_borderline emptyState "" "software_engineer" 0 BackendOutcome.failure).1
     (Or.inl (by with_unfolding_all decide))⟩

/-- C4: when the external verification call fails, _llm_verification
returns the fast result with every field unchanged.  In the source every
operation that can raise inside the try block (the completion call,
indexing the choices, reading a missing content) occurs before the first
assignment to fast_result, so a failure leaves the record exactly as it
was at the start of the attempt. -/
theorem llm_verification_failure_is_identity (fast_result : EliteScore) :
    llm_verification fast_result BackendOutcome.failure = fast_result := rfl

/-- C5: a cache hit returns a result agreeing with the stored entry on
every category score, the overall score, confidence, decision, strengths
and concerns, with only processing_time reset to the elapsed time of the
current call. -/
theorem cache_hit_clones_entry (st : OFSState) (candidate_text role : String)
    (elapsed : ℚ) (e : EliteScore)
    (h : st.cache (get_cache_key candidate_text role) = some e) :
    (evaluate_candidate_fast st candidate_text role elapsed).1 =
      { e with processing_time := elapsed } := by
  rw [eval_hit h]

/-- C5 witness: hitting the sampleState cache with the fingerprinted text
returns sampleScore with processing_time reset. -/
theorem cache_hit_clones_entry_witness :
    sampleState.cache (get_cache_key "abc" "software_engineer") = some sampleScore ∧
    (evaluate_candidate_fast sampleState "abc" "software_engineer" 7).1 =
      { sampleScore with processing_time := 7 } :=
  ⟨by simp [sampleState],
   cache_hit_clones_entry sampleState "abc" "software_engineer" 7 sampleScore
     (by simp [sampleState])⟩

lemma cacheInsert_cache (st : OFSState) (ck k : String) (v : EliteScore) :
    (cacheInsert st ck v).cache k = if k = ck then some v else st.cache k := rfl

/-- C2 amended: for every state whose cached entries satisfy the range
invariant, the fast result of evaluate_candidate_fast has all four
category scores and the overall score in the zero-to-ten band and its
confidence in the zero-to-95 band, and every entry of the updated cache
satisfies the invariant again.  (The claim as stated, extended to results
modified by the verification escalator, is refuted separately: the
escalator applies parsed values unclamped.) -/
theorem fast_result_scores_within_bounds (st : OFSState) (candidate_text role : String)
    (elapsed : ℚ) (hinv : ∀ k e, st.cache k = some e → scoreBounds e) :
    scoreBounds (evaluate_candidate_fast st candidate_text role elapsed).1 ∧
    (∀ k e, (evaluate_candidate_fast st candidate_text role elapsed).2.cache k = some e →
      scoreBounds e) := by
  cases h : st.cache (get_cache_key candidate_text role) with
  | some e =>
    rw [eval_hit h]
    have he := hinv _ _ h
    refine ⟨he, ?_⟩
    intro k e' h'
    rw [cacheInsert_cache] at h'
    split at h'
    · cases h'
      exact he
    · exact hinv _ _ h'
  | none =>
    rw [eval_miss h]
    refine ⟨core_scoreBounds candidate_text role elapsed, ?_⟩
    intro k e' h'
    rw [cacheInsert_cache] at h'
    split at h'
    · cases h'
      exact core_scoreBounds candidate_text role elapsed
    · exact hinv _ _ h'

/-- C2 witness: the invariant applied from the empty cache to a concrete
evaluation. -/
theorem fast_result_scores_within_bounds_witness :
    scoreBounds (evaluate_candidate_fast emptyState "analyst with an MBA degree"
      "software_engineer" 0).1 :=
  (fast_result_scores_within_bounds emptyState "analyst with an MBA degree"
    "software_engineer" 0 (fun _ _ h => Option.noConfusion h)).1

/-- C2 counterexample: the claim extends the bounds to results modified by
the verification escalator, but a verification response whose parsed
adjusted score is 15 drives the exposed overall score above 10 (the
parser applies the value unclamped). -/
theorem escalated_result_exceeds_bounds :
    ¬((evaluate_with_llm_verification emptyState "" "software_engineer" 0
        (BackendOutcome.response "Score: 15")).1.overall ≤ 10) := by
  with_unfolding_all decide

/-- C10: the fast-path confidence always lies in the band from 60 to 95:
the formula adds its increments to a base of 60 and caps at 95, so values
below 60 are unreachable (for every state whose cached entries already
satisfy the band, hence for every state the engine can reach). -/
theorem fast_confidence_at_least_sixty (st : OFSState) (candidate_text role : String)
    (elapsed : ℚ)
    (hinv : ∀ k e, st.cache k = some e → 60 ≤ e.confidence ∧ e.confidence ≤ 95) :
    60 ≤ (evaluate_candidate_fast st candidate_text role elapsed).1.confidence ∧
    (evaluate_candidate_fast st candidate_text role elapsed).1.confidence ≤ 95 := by
  cases h : st.cache (get_cache_key candidate_text role) with
  | some e =>
    rw [eval_hit h]
    have he := hinv (get_cache_key candidate_text role) e h
    exact ⟨he.1, he.2⟩
  | none =>
    rw [eval_miss h]
    exact core_confidence_band candidate_text role elapsed

/-- C10 witness: the empty candidate text evaluated from the empty state
has confidence exactly 60, inside the band. -/
theorem fast_confidence_at_least_sixty_witness :
    60 ≤ (evaluate_candidate_fast emptyState "" "software_engineer" 0).1.confidence ∧
    (evaluate_candidate_fast emptyState "" "software_engineer" 0).1.confidence ≤ 95 :=
  fast_confidence_at_least_sixty emptyState "" "software_engineer" 0
    (fun _ _ h => Option.noConfusion h)

/-- C9: on the end-to-end scenario text with the software_engineer role,
the fast evaluation scores education 9.5 (top-tier university),
experience 10 (FAANG employer 9.5 plus the 1.0 ten-years bonus, clamped),
strictly positive skills and achievements, and decides HIRE. -/
theorem end_to_end_scenario_scores :
    (evaluate_candidate_fast emptyState c9Text "software_engineer" 0).1.education = 9.5 ∧
    (evaluate_candidate_fast emptyState c9Text "software_engineer" 0).1.experience = 10.0 ∧
    0 < (evaluate_candidate_fast emptyState c9Text "software_engineer" 0).1.skills ∧
    0 < (evaluate_candidate_fast emptyState c9Text "software_engineer" 0).1.achievements ∧
    (evaluate_candidate_fast emptyState c9Text "software_engineer" 0).1.hire_decision = "HIRE" := by
  with_unfolding_all decide

lemma eval_miss_fst {st : OFSState} {candidate_text role : String} {elapsed : ℚ}
    (h : st.cache (get_cache_key candidate_text role) = none) :
    (evaluate_candidate_fast st candidate_text role elapsed).1 =
      fast_eval_core candidate_text role elapsed := by
  rw [eval_miss h]

/-- C6 amended: on a cache miss the stored confidence equals the source's
formula rounded to one decimal digit (round applied before the field is
stored); the unrounded formula value itself is refuted separately. -/
theorem confidence_equals_rounded_formula (st : OFSState) (candidate_text role : String)
    (elapsed : ℚ) (h : st.cache (get_cache_key candidate_text role) = none) :
    (evaluate_candidate_fast st candidate_text role elapsed).1.confidence =
      round1 (min 95.0 (60.0 + (candidate_text.toList.length : ℚ) / 100 +
        ((((detect_education_signals candidate_text).2 ++
            (detect_experience_signals candidate_text).2 ++
            (detect_skills_match candidate_text role).2).length : ℚ) * 5))) := by
  rw [eval_miss_fst h]
  exact fast_eval_core_confidence candidate_text role elapsed

/-- C6 witness: the empty text from the empty state; its confidence is the
rounded formula value. -/
theorem confidence_equals_rounded_formula_witness :
    emptyState.cache (get_cache_key "" "software_engineer") = none ∧
    (evaluate_candidate_fast emptyState "" "software_engineer" 0).1.confidence =
      round1 (min 95.0 (60.0 + (("" : String).toList.length : ℚ) / 100 +
        ((((detect_education_signals "").2 ++ (detect_experience_signals "").2 ++
            (detect_skills_match "" "software_engineer").2).length : ℚ) * 5))) :=
  ⟨rfl, confidence_equals_rounded_formula emptyState "" "software_engineer" 0 rfl⟩

/-- C6 counterexample: a 123-character no-signal text has formula value
61.23, but the stored confidence is the rounded 61.2, so the claimed
exact equality with the unrounded formula fails. -/
theorem confidence_differs_from_raw_formula :
    (evaluate_candidate_fast emptyState z123Text "software_engineer" 0).1.confidence ≠
      min 95.0 (60.0 + (z123Text.toList.length : ℚ) / 100 +
        ((((detect_education_signals z123Text).2 ++ (detect_experience_signals z123Text).2 ++
            (detect_skills_match z123Text "software_engineer").2).length : ℚ) * 5)) := by
  with_unfolding_all decide

lemma foldl_nat_max_init_le (l : List ℕ) : ∀ a : ℕ, a ≤ l.foldl Nat.max a := by
  induction l with
  | nil => intro a; exact le_rfl
  | cons x xs ih =>
    intro a
    simp only [List.foldl]
    exact le_trans (Nat.le_max_left a x) (ih (Nat.max a x))

lemma le_foldl_nat_max {l : List ℕ} {y : ℕ} (hy : y ∈ l) : ∀ a : ℕ, y ≤ l.foldl Nat.max a := by
  induction l with
  | nil => cases hy
  | cons x xs ih =>
    intro a
    rcases List.mem_cons.mp hy with h | h
    · subst h
      simp only [List.foldl]
      exact le_trans (Nat.le_max_right a y) (foldl_nat_max_init_le xs _)
    · simp only [List.foldl]
      exact ih h _

/-- C1 amended: a text with no employer-tier match, a years-of-experience
phrase giving a maximum of at least ten years, and a generic role keyword
scores exactly 5.0, not 6.0: the +1.0 years bonus is added to the 0.0
employer score first and the 5.0 generic-experience floor then absorbs it
(max of 1.0 and 5.0). -/
theorem generic_experience_with_ten_years_is_five (text : String)
    (hcomp : tierFold ELITE_COMPANIES text.toList = (0, []))
    (hyears : ∃ y ∈ findYears text.toList, 10 ≤ y)
    (hrole : searchPat roleKeywords text.toList = true) :
    (detect_experience_signals text).1 = 5 := by
  obtain ⟨y, hmem, hy⟩ := hyears
  have hne : findYears text.toList ≠ [] := List.ne_nil_of_mem hmem
  have hie : (findYears text.toList).isEmpty = false := by
    cases hfY : findYears text.toList with
    | nil => exact absurd hfY hne
    | cons a l => rfl
  have hfold : 10 ≤ (findYears text.toList).foldl Nat.max 0 :=
    le_trans hy (le_foldl_nat_max hmem 0)
  simp only [detect_experience_signals, hcomp, hie, Bool.false_eq_true, if_false,
    if_pos hfold, List.isEmpty_nil, Bool.true_and, hrole, if_true]
  norm_num

/-- C1 witness: the concrete generic-engineer text satisfies the
hypotheses and scores 5.0. -/
theorem generic_experience_with_ten_years_is_five_witness :
    tierFold ELITE_COMPANIES c1Text.toList = (0, []) ∧
    10 ∈ findYears c1Text.toList ∧
    searchPat roleKeywords c1Text.toList = true ∧
    (detect_experience_signals c1Text).1 = 5 :=
  ⟨by with_unfolding_all decide, by with_unfolding_all decide,
   by with_unfolding_all decide,
   generic_experience_with_ten_years_is_five c1Text (by with_unfolding_all decide)
     ⟨10, by with_unfolding_all decide, le_rfl⟩ (by with_unfolding_all decide)⟩

/-- C1 counterexample: the text engineer-with-10-years-of-experience
contains the phrase, a generic role keyword and no employer-tier match,
yet detect_experience_signals scores it 5.0 rather than the claimed
6.0. -/
theorem generic_experience_with_ten_years_not_six :
    List.IsInfix "10 years of experience".toList c1Text.toList ∧
    (tierFold ELITE_COMPANIES c1Text.toList).2 = [] ∧
    searchPat roleKeywords c1Text.toList = true ∧
    (detect_experience_signals c1Text).1 ≠ 6 := by
  with_unfolding_all decide

lemma ladder_mono (bm : Benchmarks) {a b : ℚ} (hab : a ≤ b) :
    labelRank (hireDecisionFor bm a) ≤ labelRank (hireDecisionFor bm b) := by
  unfold hireDecisionFor
  split_ifs <;> first | decide | (exfalso; linarith)

/-- C7: for every role the hire decision is a monotone, non-decreasing
function of the overall score in the rank order NO_HIRE, MAYBE,
STRONG_MAYBE, HIRE, and ties at each threshold take the higher label. -/
theorem hire_decision_monotone (role : String) (a b : ℚ) :
    (a ≤ b → labelRank (hireDecisionFor (getRoleBenchmarks role) a) ≤
      labelRank (hireDecisionFor (getRoleBenchmarks role) b)) ∧
    hireDecisionFor (getRoleBenchmarks role)
      (getRoleBenchmarks role).elite_threshold = "HIRE" ∧
    hireDecisionFor (getRoleBenchmarks role)
      (getRoleBenchmarks role).hire_threshold = "STRONG_MAYBE" ∧
    hireDecisionFor (getRoleBenchmarks role) 6.0 = "MAYBE" := by
  refine ⟨fun hab => ladder_mono _ hab, ?_, ?_, ?_⟩ <;>
    rcases getRoleBenchmarks_cases role with h | h | h <;> rw [h] <;>
    with_unfolding_all decide

/-- C7 witness: raising the overall score from 5 to 9 for the
software_engineer role does not lower the decision rank. -/
theorem hire_decision_monotone_witness :
    (5 : ℚ) ≤ 9 ∧
    labelRank (hireDecisionFor (getRoleBenchmarks "software_engineer") 5) ≤
      labelRank (hireDecisionFor (getRoleBenchmarks "software_engineer") 9) :=
  ⟨by norm_num, (hire_decision_monotone "software_engineer" 5 9).1 (by norm_num)⟩

lemma batch_core (role : String) (elapsed : ℚ) :
    ∀ (cands : List (String × String)) (st : OFSState),
      (cands.map (fun p => get_cache_key p.1 role)).Pairwise (fun a b => a ≠ b) →
      (∀ p ∈ cands, st.cache (get_cache_key p.1 role) = none) →
      (batch_evaluate st cands role elapsed).1 =
        cands.map (fun p => fast_eval_core p.1 role elapsed) := by
  intro cands
  induction cands with
  | nil => intro st _ _; rfl
  | cons c cs ih =>
    intro st hpw hmiss
    have hc : st.cache (get_cache_key c.1 role) = none := hmiss c (List.mem_cons_self c cs)
    simp only [List.map_cons] at hpw
    rw [List.pairwise_cons] at hpw
    obtain ⟨hhead, htail⟩ := hpw
    simp only [batch_evaluate, List.map_cons]
    rw [eval_miss hc]
    congr 1
    apply ih _ htail
    intro p hp
    rw [cacheInsert_cache]
    have hne : get_cache_key p.1 role ≠ get_cache_key c.1 role := by
      intro hh
      exact hhead (get_cache_key p.1 role) (List.mem_map_of_mem _ hp) hh.symm
    rw [if_neg hne]
    exact hmiss p (List.mem_cons_of_mem c hp)

/-- C8 amended: batch_evaluate returns one result per candidate in input
order, and when the candidates' cache fingerprints are pairwise distinct
and none is cached yet, each result equals the result of evaluating that
candidate's text alone from the same starting state.  (Without the
fingerprint condition the shared cache lets one candidate receive another
candidate's stored result; refuted separately.) -/
theorem batch_results_match_individual (st : OFSState)
    (candidates : List (String × String)) (role : String) (elapsed : ℚ)
    (hpw : (candidates.map (fun p => get_cache_key p.1 role)).Pairwise (fun a b => a ≠ b))
    (hmiss : ∀ p ∈ candidates, st.cache (get_cache_key p.1 role) = none) :
    (batch_evaluate st candidates role elapsed).1.length = candidates.length ∧
    (batch_evaluate st candidates role elapsed).1 =
      candidates.map (fun p => (evaluate_candidate_fast st p.1 role elapsed).1) := by
  have hb := batch_core role elapsed candidates st hpw hmiss
  refine ⟨by rw [hb, List.length_map], ?_⟩
  rw [hb]
  exact (List.map_congr_left (fun p hp => eval_miss_fst (hmiss p hp))).symm

/-- C8 witness: two distinct one-character candidates from the empty
state. -/
theorem batch_results_match_individual_witness :
    (([("a", "x"), ("b", "y")] : List (String × String)).map
      (fun p => get_cache_key p.1 "software_engineer")).Pairwise (fun a b => a ≠ b) ∧
    (batch_evaluate emptyState [("a", "x"), ("b", "y")] "software_engineer" 0).1 =
      ([("a", "x"), ("b", "y")] : List (String × String)).map
        (fun p => (evaluate_candidate_fast emptyState p.1 "software_engineer" 0).1) :=
  ⟨by with_unfolding_all decide,
   (batch_results_match_individual emptyState [("a", "x"), ("b", "y")]
     "software_engineer" 0 (by with_unfolding_all decide) (fun p _ => rfl)).2⟩

/-- C8 counterexample: two different texts sharing their first 500
characters share a cache fingerprint; in a batch the second receives the
first's cached result (experience 0) although evaluated alone it scores
experience 5, so batch results are not always equal to individual
evaluations. -/
theorem batch_cross_contamination :
    (batch_evaluate emptyState [(zText, "a"), (zbText, "b")] "software_engineer" 0).1.length = 2 ∧
    ((batch_evaluate emptyState [(zText, "a"), (zbText, "b")]
        "software_engineer" 0).1.getD 1 dummyScore).experience = 0 ∧
    (evaluate_candidate_fast emptyState zbText "software_engineer" 0).1.experience = 5 := by
  with_unfolding_all decide

end FitScore
